import Mathlib

/-!
Verification of the PS_CRM core subsystems: the transactional order /
inventory ledger (`internal/services/order_service.go`,
`internal/repositories/pricelist_repository.go`,
`internal/repositories/order_repository.go`) and the booking availability
resolver (`internal/repositories/booking_repository.go` and the booking
service).  The Go code is shallowly embedded: database tables become lists
of rows, SQL statements become the corresponding list operations
(`find?` for `QueryRow ... WHERE id = $1`, `map` for `UPDATE ... WHERE`,
append for `INSERT`), a transaction becomes a working copy of the store
that is kept only on commit, `time.Time` instants become `Int` seconds,
and the Go `float64` money arithmetic becomes exact `Rat` arithmetic (the
design mandates decimal semantics for money).  Fallible operations return
a `Res` value.
-/

namespace PSCRM

/-- Result of a fallible service/repository call; mirrors Go's
`(value, error)` convention. -/
inductive Err where
  /-- repositories.ErrNotFound -/
  | notFound : Err
  /-- services.ErrValidation (e.g. non-positive quantity) -/
  | validationFailed : Err
  /-- services.ErrPricelistItemNotFound with the offending item id -/
  | itemNotFound (itemId : Int) : Err
  /-- services.ErrInsufficientStock with item name, id, requested and
  available quantities (`stock.Int64` is 0 when the SQL value is NULL) -/
  | insufficientStock (name : String) (itemId : Int) (requested available : Int) : Err
  /-- services.ErrInvalidOrderStatus -/
  | invalidOrderStatus (s : String) : Err
  /-- services.ErrOrderNotFound -/
  | orderNotFound : Err
  /-- pricelistRepository.UpdateStock error: item exists but does not track stock -/
  | stockNotTracked (itemId : Int) : Err
  /-- services.ErrBookingNotFound -/
  | bookingNotFound : Err
  /-- services.ErrTableNotAvailable -/
  | tableNotAvailable : Err
  /-- services.ErrInvalidBookingTime -/
  | invalidBookingTime : Err
  /-- services.ErrClientForBookingNotFound -/
  | clientForBookingNotFound (id : Int) : Err
  /-- services.ErrStaffForBookingNotFound -/
  | staffForBookingNotFound (id : Int) : Err
  /-- services.ErrBookingValidation -/
  | bookingValidationFailed : Err
  /-- services.ErrBookingStatusUpdate -/
  | bookingStatusUpdate : Err
deriving DecidableEq, Repr

/-- Go `(T, error)` return value: exactly one of the two is meaningful. -/
inductive Res (α : Type) where
  | ok (val : α) : Res α
  | err (e : Err) : Res α
deriving DecidableEq, Repr

namespace Res

def isOk {α : Type} : Res α → Bool
  | .ok _ => true
  | .err _ => false

end Res

/-! ## Data model (`internal/models`) -/

/-- models.PricelistItem restricted to the fields the core reads:
`currentStock` is `sql.NullInt64` hence an `Option Int`. -/
structure PricelistItem where
  id : Int
  name : String
  price : Rat
  tracksStock : Bool
  currentStock : Option Int
deriving DecidableEq, Repr

/-- models.InventoryMovement (audit ledger row). -/
structure InventoryMovement where
  pricelistItemId : Int
  staffId : Option Int
  movementType : String
  quantityChanged : Int
  reason : Option String
  movementDate : Int
deriving DecidableEq, Repr

/-- models.Order header row. -/
structure Order where
  id : Int
  clientId : Option Int
  bookingId : Option Int
  staffId : Option Int
  tableId : Option Int
  status : String
  totalAmount : Rat
  discountAmount : Option Rat
  finalAmount : Rat
  paymentMethod : Option String
  notes : Option String
  orderTime : Int
  createdAt : Int
  updatedAt : Int
deriving DecidableEq, Repr

/-- models.OrderItem row (unit price is the snapshot taken at order time). -/
structure OrderItem where
  orderId : Int
  pricelistItemId : Int
  quantity : Int
  unitPrice : Rat
  totalPrice : Rat
  notes : Option String
deriving DecidableEq, Repr

/-- models.Booking row restricted to the fields the resolver reads. -/
structure Booking where
  id : Int
  clientId : Option Int
  tableId : Int
  staffId : Option Int
  startTime : Int
  endTime : Int
  numberOfGuests : Option Int
  status : String
  notes : Option String
deriving DecidableEq, Repr

/-! ## Status and movement-type constants -/

/-- services.StatusPending -/
def StatusPending : String := "pending"

/-- services.StatusCompleted -/
def StatusCompleted : String := "completed"

/-- services.StatusCancelled -/
def StatusCancelled : String := "cancelled"

/-- services.StatusPreparing -/
def StatusPreparing : String := "preparing"

/-- services.StatusReady -/
def StatusReady : String := "ready"

/-- services.StatusServed -/
def StatusServed : String := "served"

/-- services.StatusPaid -/
def StatusPaid : String := "paid"

/-- services.StatusRefunded -/
def StatusRefunded : String := "refunded"

/-- services.isValidOrderStatus -/
def isValidOrderStatus (status : String) : Bool :=
  status == StatusPending || status == StatusCompleted || status == StatusCancelled ||
  status == StatusPreparing || status == StatusReady || status == StatusServed ||
  status == StatusPaid || status == StatusRefunded

/-- Modelled from the spec: the `MovementTypeSale` constant referenced by
`order_service.go` is declared in a repository file absent from `src/`;
the spec's movement kinds name it `sale`. -/
def MovementTypeSale : String := "sale"

/-- Modelled from the spec: the `MovementTypeReturnCancellation` constant
referenced by `order_service.go` is declared in a repository file absent
from `src/`; the spec's movement kinds name it `return-on-cancel`. -/
def MovementTypeReturnCancellation : String := "return-on-cancel"

/-- Modelled from the spec: the `MovementTypeReturnDeletion` constant
referenced by `order_service.go` is declared in a repository file absent
from `src/`; the spec's movement kinds name it `return-on-delete`. -/
def MovementTypeReturnDeletion : String := "return-on-delete"

/-- models.BookingStatusConfirmed -/
def BookingStatusConfirmed : String := "confirmed"

/-- models.BookingStatusCancelled -/
def BookingStatusCancelled : String := "cancelled"

/-- models.BookingStatusCompleted -/
def BookingStatusCompleted : String := "completed"

/-- models.BookingStatusNoShow -/
def BookingStatusNoShow : String := "no-show"

/-- models.BookingStatusPending -/
def BookingStatusPending : String := "pending"

/-- Modelled from the spec: the `BookingStatusCheckedIn` constant
referenced by `booking_repository.go` is declared in a models file absent
from `src/`; the spec's occupying set names it `checked-in`. -/
def BookingStatusCheckedIn : String := "checked-in"

/-- models.IsValidBookingStatus -/
def IsValidBookingStatus (status : String) : Bool :=
  status == BookingStatusConfirmed || status == BookingStatusCancelled ||
  status == BookingStatusCompleted || status == BookingStatusNoShow ||
  status == BookingStatusPending

/-- utils.NewNullString: the empty string becomes SQL NULL. -/
def NewNullString (s : String) : Option String :=
  if s == "" then none else some s

/-! ## The relational store for the order / inventory subsystem -/

/-- The tables the order/inventory subsystem touches.  `nextOrderId` stands
for the `orders` sequence backing `RETURNING id`. -/
structure OrderDB where
  items : List PricelistItem
  movements : List InventoryMovement
  orders : List Order
  orderItems : List OrderItem
  nextOrderId : Int
deriving DecidableEq, Repr

/-- pricelistRepository.GetItemPriceAndStock: `SELECT name, price,
tracks_stock, current_stock FROM pricelist_items WHERE id = $1` against the
committed store (it runs on `r.db`, outside any transaction). -/
def GetItemPriceAndStock (db : OrderDB) (itemId : Int) :
    Res (Rat × Option Int × String × Bool) :=
  match db.items.find? (fun it => it.id == itemId) with
  | none => .err .notFound
  | some it => .ok (it.price, it.currentStock, it.name, it.tracksStock)

/-- pricelistRepository.UpdateStock: `UPDATE pricelist_items SET
current_stock = COALESCE(current_stock, 0) + $1 WHERE id = $3 AND
tracks_stock = TRUE RETURNING current_stock`, run on the caller's
transaction.  When no row is updated the code distinguishes a missing item
from one that does not track stock. -/
def UpdateStock (db : OrderDB) (itemId : Int) (quantityChange : Int) :
    Res (OrderDB × Int) :=
  match db.items.find? (fun it => it.id == itemId && it.tracksStock) with
  | some it =>
      .ok ({ db with
              items := db.items.map (fun j =>
                if j.id == itemId && j.tracksStock then
                  { j with currentStock := some (j.currentStock.getD 0 + quantityChange) }
                else j) },
            it.currentStock.getD 0 + quantityChange)
  | none =>
      match db.items.find? (fun it => it.id == itemId) with
      | none => .err .notFound
      | some _ => .err (.stockNotTracked itemId)

/-- inventoryMovementRepository.CreateMovement: append-only insert on the
caller's transaction. -/
def CreateMovement (db : OrderDB) (m : InventoryMovement) : OrderDB :=
  { db with movements := db.movements ++ [m] }

/-- orderRepository.GetOrderItemsByOrderID: `SELECT ... FROM order_items
WHERE order_id = $1` against the committed store. -/
def GetOrderItemsByOrderID (db : OrderDB) (orderId : Int) : List OrderItem :=
  db.orderItems.filter (fun oi => oi.orderId == orderId)

/-- orderRepository.GetOrderByID: `SELECT ... FROM orders WHERE id = $1`
against the committed store. -/
def GetOrderByID (db : OrderDB) (orderId : Int) : Res Order :=
  match db.orders.find? (fun o => o.id == orderId) with
  | none => .err .notFound
  | some o => .ok o

/-! ## Order service (`internal/services/order_service.go`) -/

/-- services.CreateOrderItemRequest -/
structure CreateOrderItemRequest where
  pricelistItemId : Int
  quantity : Int
  notes : String
deriving DecidableEq, Repr

/-- services.CreateOrderRequest -/
structure CreateOrderRequest where
  clientId : Option Int
  bookingId : Option Int
  staffId : Int
  tableId : Option Int
  status : String
  paymentMethod : Option String
  notes : Option String
  orderItems : List CreateOrderItemRequest
  discountAmount : Option Rat
deriving DecidableEq, Repr

/-- The per-line loop of orderService.CreateOrder (lines 140-184).  `snap`
is the committed store visible to `GetItemPriceAndStock` (which runs
outside the transaction on `r.db`), `txdb` is the transaction's working
state mutated by `UpdateStock` and `CreateMovement`.  Accumulates the
running `totalAmount` and the `orderItemsToCreate` slice. -/
def processOrderItems (snap : OrderDB) (staffId : Int) (now : Int) :
    OrderDB → List CreateOrderItemRequest → Rat → List OrderItem →
    Res (OrderDB × Rat × List OrderItem)
  | txdb, [], total, acc => .ok (txdb, total, acc)
  | txdb, itemReq :: rest, total, acc =>
    if itemReq.quantity ≤ 0 then
      .err .validationFailed
    else
      match GetItemPriceAndStock snap itemReq.pricelistItemId with
      | .err .notFound => .err (.itemNotFound itemReq.pricelistItemId)
      | .err e => .err e
      | .ok (price, stock, itemName, tracksStock) =>
        let itemTotalPrice := price * (itemReq.quantity : Rat)
        let total' := total + itemTotalPrice
        let orderItem : OrderItem :=
          { orderId := 0
            pricelistItemId := itemReq.pricelistItemId
            quantity := itemReq.quantity
            unitPrice := price
            totalPrice := itemTotalPrice
            notes := NewNullString itemReq.notes }
        if tracksStock then
          if stock.getD 0 < itemReq.quantity ∨ stock = none then
            .err (.insufficientStock itemName itemReq.pricelistItemId
                    itemReq.quantity (stock.getD 0))
          else
            match UpdateStock txdb itemReq.pricelistItemId (-itemReq.quantity) with
            | .err e => .err e
            | .ok (txdb1, _) =>
              let txdb2 := CreateMovement txdb1
                { pricelistItemId := itemReq.pricelistItemId
                  staffId := some staffId
                  movementType := MovementTypeSale
                  quantityChanged := -itemReq.quantity
                  reason := NewNullString "Order creation"
                  movementDate := now }
              processOrderItems snap staffId now txdb2 rest total' (acc ++ [orderItem])
        else
          processOrderItems snap staffId now txdb rest total' (acc ++ [orderItem])

/-- The `finalAmount` computation of orderService.CreateOrder (lines
186-192): apply the discount when present and clamp the result at zero. -/
def finalOf (totalAmount : Rat) (discountAmount : Option Rat) : Rat :=
  match discountAmount with
  | none => totalAmount
  | some d => if totalAmount - d < 0 then 0 else totalAmount - d

/-- The order header built by orderService.CreateOrder (lines 198-212). -/
def builtOrder (req : CreateOrderRequest) (now : Int) (orderId : Int)
    (totalAmount : Rat) : Order :=
  { id := orderId
    clientId := req.clientId
    bookingId := req.bookingId
    staffId := some req.staffId
    tableId := req.tableId
    status := req.status
    totalAmount := totalAmount
    discountAmount := req.discountAmount
    finalAmount := finalOf totalAmount req.discountAmount
    paymentMethod := req.paymentMethod
    notes := req.notes
    orderTime := now
    createdAt := now
    updatedAt := now }

/-- orderService.CreateOrder as a transaction body: on `.ok` the returned
store is the committed state; on `.err` the transaction is rolled back and
the committed state stays the caller's `db`. -/
def CreateOrder (db : OrderDB) (req : CreateOrderRequest) (now : Int) :
    Res (OrderDB × Int) :=
  match processOrderItems db req.staffId now db req.orderItems 0 [] with
  | .err e => .err e
  | .ok (txdb, totalAmount, orderItemsToCreate) =>
    if isValidOrderStatus req.status then
      let orderId := db.nextOrderId
      .ok ({ txdb with
              orders := txdb.orders ++ [builtOrder req now orderId totalAmount]
              orderItems := txdb.orderItems ++
                orderItemsToCreate.map (fun oi => { oi with orderId := orderId })
              nextOrderId := orderId + 1 },
            orderId)
    else
      .err (.invalidOrderStatus req.status)

/-- Observable effect of one CreateOrder call: `tx.Commit()` keeps the
transaction's state, any earlier `return` fires the deferred
`tx.Rollback()` and the committed store is unchanged. -/
def CreateOrderRun (db : OrderDB) (req : CreateOrderRequest) (now : Int) :
    OrderDB × Res Int :=
  match CreateOrder db req now with
  | .ok (db', orderId) => (db', .ok orderId)
  | .err e => (db, .err e)

/-- Reason string `fmt.Sprintf("Order %d cancelled", orderID)`. -/
def cancelReason (orderId : Int) : String :=
  "Order " ++ toString orderId ++ " cancelled"

/-- Reason string `fmt.Sprintf("Order %d deleted", orderID)`. -/
def deleteReason (orderId : Int) : String :=
  "Order " ++ toString orderId ++ " deleted"

/-- The shared stock-return loop of orderService.UpdateOrderStatus (lines
302-327) and orderService.DeleteOrder (lines 364-387): for each order item,
look the item up in the committed store, and when it tracks stock return
the ordered quantity and record a movement of the given type. -/
def returnOrderItems (snap : OrderDB) (actor : Option Int) (mtype : String)
    (reason : String) (now : Int) :
    OrderDB → List OrderItem → Res OrderDB
  | txdb, [] => .ok txdb
  | txdb, item :: rest =>
    match GetItemPriceAndStock snap item.pricelistItemId with
    | .err e => .err e
    | .ok (_, _, _, tracksStock) =>
      if tracksStock then
        match UpdateStock txdb item.pricelistItemId item.quantity with
        | .err e => .err e
        | .ok (txdb1, _) =>
          let txdb2 := CreateMovement txdb1
            { pricelistItemId := item.pricelistItemId
              staffId := actor
              movementType := mtype
              quantityChanged := item.quantity
              reason := NewNullString reason
              movementDate := now }
          returnOrderItems snap actor mtype reason now txdb2 rest
      else
        returnOrderItems snap actor mtype reason now txdb rest

/-- orderRepository.UpdateOrderStatus: `UPDATE orders SET status = $1,
updated_at = $2 WHERE id = $3` on the caller's transaction (the repository
reports `ErrNotFound` when no row matches, which the service has already
ruled out by loading the order). -/
def RepoUpdateOrderStatus (db : OrderDB) (orderId : Int) (newStatus : String)
    (updatedAt : Int) : OrderDB :=
  { db with orders := db.orders.map (fun o =>
      if o.id == orderId then { o with status := newStatus, updatedAt := updatedAt }
      else o) }

/-- orderService.UpdateOrderStatus as a transaction body: validates the
status, loads the order, returns stock on a transition into `cancelled`
from a non-`cancelled`/`refunded` state, then updates the status row. -/
def UpdateOrderStatus (db : OrderDB) (orderId : Int) (newStatus : String)
    (now : Int) : Res OrderDB :=
  if isValidOrderStatus newStatus then
    match GetOrderByID db orderId with
    | .err _ => .err .orderNotFound
    | .ok currentOrder =>
      let afterReturn : Res OrderDB :=
        if newStatus == StatusCancelled && currentOrder.status != StatusCancelled &&
            currentOrder.status != StatusRefunded then
          returnOrderItems db currentOrder.staffId MovementTypeReturnCancellation
            (cancelReason orderId) now db (GetOrderItemsByOrderID db orderId)
        else
          .ok db
      match afterReturn with
      | .err e => .err e
      | .ok txdb => .ok (RepoUpdateOrderStatus txdb orderId newStatus now)
  else
    .err (.invalidOrderStatus newStatus)

/-- orderService.DeleteOrder as a transaction body: loads the order,
returns stock unless the order is already `cancelled`/`refunded`, then
deletes the order items and the order header. -/
def DeleteOrder (db : OrderDB) (orderId : Int) (now : Int) : Res OrderDB :=
  match GetOrderByID db orderId with
  | .err _ => .err .orderNotFound
  | .ok order =>
    let afterReturn : Res OrderDB :=
      if order.status != StatusCancelled && order.status != StatusRefunded then
        returnOrderItems db order.staffId MovementTypeReturnDeletion
          (deleteReason orderId) now db (GetOrderItemsByOrderID db orderId)
      else
        .ok db
    match afterReturn with
    | .err e => .err e
    | .ok txdb =>
      let txdb1 := { txdb with
        orderItems := txdb.orderItems.filter (fun oi => !(oi.orderId == orderId)) }
      .ok { txdb1 with
        orders := txdb1.orders.filter (fun o => !(o.id == orderId)) }

/-! ## Operation sequences and the ledger invariant -/

/-- One core operation of the order subsystem. -/
inductive CoreOp where
  | createOrd (req : CreateOrderRequest) (now : Int) : CoreOp
  | updStatus (orderId : Int) (newStatus : String) (now : Int) : CoreOp
  | delOrd (orderId : Int) (now : Int) : CoreOp
deriving Repr

/-- Committed store after one core operation; a failed operation rolls its
transaction back and leaves the store unchanged. -/
def applyOp (db : OrderDB) : CoreOp → OrderDB
  | .createOrd req now => (CreateOrderRun db req now).1
  | .updStatus orderId newStatus now =>
    match UpdateOrderStatus db orderId newStatus now with
    | .ok db' => db'
    | .err _ => db
  | .delOrd orderId now =>
    match DeleteOrder db orderId now with
    | .ok db' => db'
    | .err _ => db

/-- Committed store after a sequence of core operations. -/
def runOps (db : OrderDB) (ops : List CoreOp) : OrderDB :=
  ops.foldl applyOp db

/-- Observable stock of an item: the `current_stock` column of the row with
the given id, with SQL NULL read as 0 (as `stock.Int64` and `COALESCE`
do); 0 when the row is missing. -/
def stockValue (db : OrderDB) (itemId : Int) : Int :=
  match db.items.find? (fun it => it.id == itemId) with
  | some it => it.currentStock.getD 0
  | none => 0

/-- Sum of the signed quantity deltas of the recorded movements of one
item. -/
def sumDeltas (ms : List InventoryMovement) (itemId : Int) : Int :=
  ((ms.filter (fun m => m.pricelistItemId == itemId)).map
    (fun m => m.quantityChanged)).sum

/-- Row ids of the pricelist table (primary-key uniqueness is stated as
`Nodup` of this list). -/
def itemIds (db : OrderDB) : List Int :=
  db.items.map (fun it => it.id)

/-! ## Booking resolver and lifecycle (`booking_repository.go` and the
booking service file) -/

/-- The tables the booking subsystem touches.  Clients and staff only
matter through existence checks (`GetClientByID` / `GetStaffMemberByID`),
so those tables are carried as their id columns. -/
structure BookingDB where
  bookings : List Booking
  clientIds : List Int
  staffIds : List Int
  nextBookingId : Int
deriving DecidableEq, Repr

/-- bookingRepository.CheckTableAvailability: counts bookings of the table
whose status is `confirmed` or `checked-in` and whose interval satisfies
`start_time < $3 AND end_time > $2`, optionally skipping one booking id;
the table is available when the count is zero. -/
def CheckTableAvailability (bookings : List Booking) (tableId : Int)
    (startTime endTime : Int) (excludeBookingId : Option Int) : Bool :=
  (bookings.countP (fun b =>
    b.tableId == tableId &&
    (b.status == BookingStatusConfirmed || b.status == BookingStatusCheckedIn) &&
    decide (b.startTime < endTime) && decide (b.endTime > startTime) &&
    (match excludeBookingId with
     | none => true
     | some ex => b.id != ex))) == 0

/-- bookingService.parseAndValidateBookingTimes, with the RFC3339 string
parsing abstracted away: the validation acts on the parsed instants
(seconds).  Checks `end > start`, a 15-minute minimum and a 12-hour
maximum duration, and the 5-minute past-time tolerance (against `now`)
for new bookings, or for updates that move the start time. -/
def parseAndValidateBookingTimes (startTime endTime : Int) (forUpdate : Bool)
    (existingStartTime : Option Int) (now : Int) : Res (Int × Int) :=
  if ¬ (startTime < endTime) then
    .err .invalidBookingTime
  else if endTime - startTime < 15 * 60 then
    .err .invalidBookingTime
  else if endTime - startTime > 12 * 60 * 60 then
    .err .invalidBookingTime
  else if !forUpdate && decide (startTime < now - 5 * 60) then
    .err .invalidBookingTime
  else if forUpdate &&
      (match existingStartTime with
       | some ex => startTime != ex
       | none => false) && decide (startTime < now - 5 * 60) then
    .err .invalidBookingTime
  else
    .ok (startTime, endTime)

/-- services.CreateBookingRequest (times already parsed to instants). -/
structure CreateBookingRequest where
  clientId : Option Int
  tableId : Int
  staffId : Int
  startTime : Int
  endTime : Int
  numberOfGuests : Option Int
  notes : Option String
  status : Option String
deriving DecidableEq, Repr

/-- services.UpdateBookingRequest (times already parsed to instants). -/
structure UpdateBookingRequest where
  tableId : Option Int
  startTime : Option Int
  endTime : Option Int
  numberOfGuests : Option Int
  notes : Option String
  status : Option String
deriving DecidableEq, Repr

/-- bookingService.CreateBooking: validates times, checks client/staff
existence, checks availability (no excluded booking), resolves the status
(default `confirmed`, an explicit non-blank status must be valid), and
inserts the booking. -/
def CreateBooking (db : BookingDB) (req : CreateBookingRequest) (now : Int) :
    Res (BookingDB × Booking) :=
  match parseAndValidateBookingTimes req.startTime req.endTime false none now with
  | .err e => .err e
  | .ok (startTime, endTime) =>
    let clientOk : Res Unit :=
      match req.clientId with
      | none => .ok ()
      | some cid =>
        if db.clientIds.contains cid then .ok ()
        else .err (.clientForBookingNotFound cid)
    match clientOk with
    | .err e => .err e
    | .ok _ =>
      if db.staffIds.contains req.staffId then
        if CheckTableAvailability db.bookings req.tableId startTime endTime none then
          let statusRes : Res String :=
            match req.status with
            | some st =>
              if st.trim != "" then
                if IsValidBookingStatus st then .ok st
                else .err .bookingValidationFailed
              else .ok BookingStatusConfirmed
            | none => .ok BookingStatusConfirmed
          match statusRes with
          | .err e => .err e
          | .ok status =>
            let booking : Booking :=
              { id := db.nextBookingId
                clientId := req.clientId
                tableId := req.tableId
                staffId := some req.staffId
                startTime := startTime
                endTime := endTime
                numberOfGuests := req.numberOfGuests
                status := status
                notes := req.notes }
            .ok ({ db with
                    bookings := db.bookings ++ [booking]
                    nextBookingId := db.nextBookingId + 1 },
                  booking)
        else
          .err .tableNotAvailable
      else
        .err (.staffForBookingNotFound req.staffId)

/-- bookingRepository.UpdateBooking persistence step: `UPDATE bookings SET
... WHERE id = ...`, replacing the matching row with the mutated value. -/
def RepoUpdateBooking (db : BookingDB) (booking : Booking) : BookingDB :=
  { db with bookings := db.bookings.map (fun b =>
      if b.id == booking.id then booking else b) }

/-- bookingService.UpdateBooking, translated statement by statement: load
the booking, reject terminal (`completed`/`cancelled`) bookings, assign
`booking.TableID` from the request first, re-validate times when either
endpoint is supplied, then re-run the availability check when
`timeChanged || (req.TableID != nil && *req.TableID != booking.TableID)` —
note the second disjunct reads the already-overwritten `booking.TableID` —
apply the remaining field updates, and persist. -/
def UpdateBooking (db : BookingDB) (bookingId : Int) (req : UpdateBookingRequest)
    (now : Int) : Res (BookingDB × Booking) :=
  match db.bookings.find? (fun b => b.id == bookingId) with
  | none => .err .bookingNotFound
  | some booking0 =>
    if booking0.status == BookingStatusCompleted ||
        booking0.status == BookingStatusCancelled then
      .err .bookingValidationFailed
    else
      let booking1 :=
        match req.tableId with
        | some t => { booking0 with tableId := t }
        | none => booking0
      let timeChanged := req.startTime.isSome || req.endTime.isSome
      let timesRes : Res (Int × Int) :=
        if timeChanged then
          parseAndValidateBookingTimes
            (req.startTime.getD booking0.startTime)
            (req.endTime.getD booking0.endTime)
            true (some booking0.startTime) now
        else
          .ok (booking0.startTime, booking0.endTime)
      match timesRes with
      | .err e => .err e
      | .ok (newStartTime, newEndTime) =>
        let needCheck := timeChanged ||
          (match req.tableId with
           | some t => t != booking1.tableId
           | none => false)
        if needCheck &&
            !(CheckTableAvailability db.bookings booking1.tableId
                newStartTime newEndTime (some bookingId)) then
          .err .tableNotAvailable
        else
          let booking2 := { booking1 with
            startTime := newStartTime, endTime := newEndTime }
          let booking3 :=
            match req.numberOfGuests with
            | some g => { booking2 with numberOfGuests := some g }
            | none => booking2
          let booking4 :=
            match req.notes with
            | some n => { booking3 with notes := some n }
            | none => booking3
          let statusRes : Res Booking :=
            match req.status with
            | some st =>
              if IsValidBookingStatus st then .ok { booking4 with status := st }
              else .err .bookingValidationFailed
            | none => .ok booking4
          match statusRes with
          | .err e => .err e
          | .ok booking5 => .ok (RepoUpdateBooking db booking5, booking5)

/-- bookingService.updateBookingStatus: loads the booking, forbids leaving
a terminal state (`completed` may only stay `completed`, `cancelled` may
only stay `cancelled`), then persists the new status. -/
def updateBookingStatus (db : BookingDB) (bookingId : Int) (newStatus : String) :
    Res (BookingDB × Booking) :=
  match db.bookings.find? (fun b => b.id == bookingId) with
  | none => .err .bookingNotFound
  | some booking =>
    if booking.status == BookingStatusCompleted &&
        newStatus != BookingStatusCompleted then
      .err .bookingStatusUpdate
    else if booking.status == BookingStatusCancelled &&
        newStatus != BookingStatusCancelled then
      .err .bookingStatusUpdate
    else
      let booking' := { booking with status := newStatus }
      .ok (RepoUpdateBooking db booking', booking')

/-- bookingService.CancelBooking -/
def CancelBooking (db : BookingDB) (bookingId : Int) : Res (BookingDB × Booking) :=
  updateBookingStatus db bookingId BookingStatusCancelled

/-- bookingService.CompleteBooking -/
def CompleteBooking (db : BookingDB) (bookingId : Int) : Res (BookingDB × Booking) :=
  updateBookingStatus db bookingId BookingStatusCompleted

/-! ## Helper notions for the ledger proofs -/

/-- Id and stock-tracking flag of every pricelist row; the stock-adjusting
loops change stock values but never this projection. -/
def trackIds (db : OrderDB) : List (Int × Bool) :=
  db.items.map (fun it => (it.id, it.tracksStock))

/-- Whether the committed snapshot says the item tracks stock (the test the
stock-return loops make through `GetItemPriceAndStock`). -/
def trackedInSnap (snap : OrderDB) (itemId : Int) : Bool :=
  match snap.items.find? (fun it => it.id == itemId) with
  | none => false
  | some it => it.tracksStock

/-! ## List lemmas -/

theorem find?_map_of_id_pres (f : PricelistItem → PricelistItem)
    (hid : ∀ it, (f it).id = it.id) (l : List PricelistItem) (j : Int) :
    (l.map f).find? (fun it => it.id == j) = (l.find? (fun it => it.id == j)).map f := by
  induction l with
  | nil => rfl
  | cons a l ih =>
    simp only [List.map_cons, List.find?]
    by_cases h : a.id = j
    · simp [hid, h]
    · have hb : (a.id == j) = false := by simp [h]
      simp [hid, hb, ih]

theorem find?_id_unique {l : List PricelistItem}
    (hnd : (l.map (fun it => it.id)).Nodup) {a : PricelistItem} (ha : a ∈ l) :
    l.find? (fun it => it.id == a.id) = some a := by
  have hsome : (l.find? (fun it => it.id == a.id)).isSome := by
    rw [List.find?_isSome]
    exact ⟨a, ha, by simp⟩
  obtain ⟨b, hb⟩ := Option.isSome_iff_exists.mp hsome
  have hbmem := List.mem_of_find?_eq_some hb
  have hbid : b.id = a.id := by simpa using List.find?_some hb
  have hba : b = a := List.inj_on_of_nodup_map hnd hbmem ha hbid
  rw [hb, hba]

theorem itemIds_eq_of_trackIds_eq {db db' : OrderDB}
    (h : trackIds db' = trackIds db) : itemIds db' = itemIds db := by
  have h1 : (trackIds db').map Prod.fst = (trackIds db).map Prod.fst := by rw [h]
  simpa [trackIds, itemIds, List.map_map, Function.comp] using h1

/-! ## sumDeltas lemmas -/

theorem sumDeltas_append (ms ns : List InventoryMovement) (j : Int) :
    sumDeltas (ms ++ ns) j = sumDeltas ms j + sumDeltas ns j := by
  simp [sumDeltas, List.filter_append]

theorem sumDeltas_singleton (m : InventoryMovement) (j : Int) :
    sumDeltas [m] j = if m.pricelistItemId = j then m.quantityChanged else 0 := by
  by_cases h : m.pricelistItemId = j
  · simp [sumDeltas, List.filter_cons, h]
  · simp [sumDeltas, List.filter_cons, h]

/-! ## UpdateStock lemmas -/

theorem UpdateStock_frame {db : OrderDB} {itemId δ : Int} {db' : OrderDB} {n : Int}
    (h : UpdateStock db itemId δ = .ok (db', n)) :
    db'.movements = db.movements ∧ db'.orders = db.orders ∧
    db'.orderItems = db.orderItems ∧ db'.nextOrderId = db.nextOrderId := by
  unfold UpdateStock at h
  split at h
  · simp only [Res.ok.injEq, Prod.mk.injEq] at h
    obtain ⟨h1, _⟩ := h
    subst h1
    exact ⟨rfl, rfl, rfl, rfl⟩
  · split at h <;> simp at h

theorem UpdateStock_trackIds {db : OrderDB} {itemId δ : Int} {db' : OrderDB} {n : Int}
    (h : UpdateStock db itemId δ = .ok (db', n)) :
    trackIds db' = trackIds db := by
  unfold UpdateStock at h
  split at h
  · simp only [Res.ok.injEq, Prod.mk.injEq] at h
    obtain ⟨h1, _⟩ := h
    subst h1
    simp only [trackIds, List.map_map]
    apply List.map_congr_left
    intro it _
    by_cases hc : (it.id == itemId && it.tracksStock) = true
    · simp [Function.comp, hc]
    · simp [Function.comp, hc]
  · split at h <;> simp at h

theorem UpdateStock_items_found {db : OrderDB} {itemId δ : Int} {db' : OrderDB} {n : Int}
    (h : UpdateStock db itemId δ = .ok (db', n)) :
    ∃ it0 ∈ db.items, it0.id = itemId ∧ it0.tracksStock = true := by
  unfold UpdateStock at h
  split at h
  · next it0 hfind =>
    refine ⟨it0, List.mem_of_find?_eq_some hfind, ?_⟩
    have := List.find?_some hfind
    simp only [Bool.and_eq_true, beq_iff_eq] at this
    exact this
  · split at h <;> simp at h

theorem UpdateStock_items_map {db : OrderDB} {itemId δ : Int} {db' : OrderDB} {n : Int}
    (h : UpdateStock db itemId δ = .ok (db', n)) :
    db'.items = db.items.map (fun j =>
      if j.id == itemId && j.tracksStock then
        { j with currentStock := some (j.currentStock.getD 0 + δ) }
      else j) := by
  unfold UpdateStock at h
  split at h
  · simp only [Res.ok.injEq, Prod.mk.injEq] at h
    obtain ⟨h1, _⟩ := h
    subst h1
    rfl
  · split at h <;> simp at h

theorem UpdateStock_stock_other {db : OrderDB} {itemId δ : Int} {db' : OrderDB} {n : Int}
    (h : UpdateStock db itemId δ = .ok (db', n)) (j : Int) (hj : j ≠ itemId) :
    stockValue db' j = stockValue db j := by
  have hitems := UpdateStock_items_map h
  unfold stockValue
  rw [hitems, find?_map_of_id_pres _ (fun it => by split <;> rfl)]
  cases hfind : db.items.find? (fun it => it.id == j) with
  | none => rfl
  | some it =>
    have hid : it.id = j := by simpa using List.find?_some hfind
    have hcond : ¬ (it.id = itemId ∧ it.tracksStock = true) := by
      rintro ⟨h1, _⟩
      rw [hid] at h1
      exact hj h1
    simp [hcond]

theorem UpdateStock_stock_self {db : OrderDB} {itemId δ : Int} {db' : OrderDB} {n : Int}
    (h : UpdateStock db itemId δ = .ok (db', n)) (hnd : (itemIds db).Nodup) :
    stockValue db' itemId = stockValue db itemId + δ := by
  obtain ⟨it0, hmem, hid, htrack⟩ := UpdateStock_items_found h
  have hitems := UpdateStock_items_map h
  have hfind : db.items.find? (fun it => it.id == itemId) = some it0 := by
    have := find?_id_unique (l := db.items) hnd hmem
    rwa [hid] at this
  unfold stockValue
  rw [hitems, find?_map_of_id_pres _ (fun it => by split <;> rfl), hfind]
  simp [hid, htrack]

theorem UpdateStock_isOk {db : OrderDB} {itemId : Int} (δ : Int)
    (hex : ∃ it ∈ db.items, it.id = itemId ∧ it.tracksStock = true) :
    ∃ db' n, UpdateStock db itemId δ = .ok (db', n) := by
  obtain ⟨it, hmem, hid, htrack⟩ := hex
  have hsome : (db.items.find? (fun x => x.id == itemId && x.tracksStock)).isSome := by
    rw [List.find?_isSome]
    exact ⟨it, hmem, by simp [hid, htrack]⟩
  obtain ⟨it0, hfind⟩ := Option.isSome_iff_exists.mp hsome
  refine ⟨{ db with items := db.items.map (fun j =>
      if j.id == itemId && j.tracksStock then
        { j with currentStock := some (j.currentStock.getD 0 + δ) }
      else j) },
    it0.currentStock.getD 0 + δ, ?_⟩
  unfold UpdateStock
  rw [hfind]

/-! ## The ledger-step relation

The stock-adjusting loops only ever change item stock values and append to
the movement ledger, and each stock change is mirrored by the appended
deltas.  `LedgerStep` records exactly that. -/

structure LedgerStep (db db' : OrderDB) : Prop where
  orders_eq : db'.orders = db.orders
  orderItems_eq : db'.orderItems = db.orderItems
  next_eq : db'.nextOrderId = db.nextOrderId
  track_eq : trackIds db' = trackIds db
  movements_ext : ∃ ms, db'.movements = db.movements ++ ms
  cons : (itemIds db).Nodup → ∀ j,
    stockValue db' j - stockValue db j =
      sumDeltas db'.movements j - sumDeltas db.movements j

theorem ledgerStep_refl (db : OrderDB) : LedgerStep db db :=
  ⟨Eq.refl _, Eq.refl _, Eq.refl _, Eq.refl _, ⟨[], by simp⟩, fun _ _ => by omega⟩

theorem ledgerStep_trans {db1 db2 db3 : OrderDB}
    (h12 : LedgerStep db1 db2) (h23 : LedgerStep db2 db3) : LedgerStep db1 db3 := by
  obtain ⟨ms12, hm12⟩ := h12.movements_ext
  obtain ⟨ms23, hm23⟩ := h23.movements_ext
  refine ⟨h23.orders_eq.trans h12.orders_eq,
    h23.orderItems_eq.trans h12.orderItems_eq,
    h23.next_eq.trans h12.next_eq,
    h23.track_eq.trans h12.track_eq,
    ⟨ms12 ++ ms23, by rw [hm23, hm12, List.append_assoc]⟩, ?_⟩
  intro hnd j
  have hnd2 : (itemIds db2).Nodup := by
    rwa [itemIds_eq_of_trackIds_eq h12.track_eq]
  have e1 := h12.cons hnd j
  have e2 := h23.cons hnd2 j
  omega

/-- The paired write of the ledger discipline: one successful `UpdateStock`
immediately followed by one `CreateMovement` with the same item and
delta. -/
theorem LedgerStep.pair {db db1 : OrderDB} {itemId δ n : Int}
    {m : InventoryMovement}
    (hu : UpdateStock db itemId δ = .ok (db1, n))
    (hm : m.pricelistItemId = itemId) (hq : m.quantityChanged = δ) :
    LedgerStep db (CreateMovement db1 m) := by
  obtain ⟨hmov, hord, hoi, hnext⟩ := UpdateStock_frame hu
  refine ⟨?_, ?_, ?_, ?_, ⟨[m], ?_⟩, ?_⟩
  · simpa [CreateMovement] using hord
  · simpa [CreateMovement] using hoi
  · simpa [CreateMovement] using hnext
  · simpa [CreateMovement, trackIds] using UpdateStock_trackIds hu
  · simp [CreateMovement, hmov]
  · intro hnd j
    have hstock : stockValue (CreateMovement db1 m) j = stockValue db1 j := by
      simp [CreateMovement, stockValue]
    have hmv : (CreateMovement db1 m).movements = db.movements ++ [m] := by
      simp [CreateMovement, hmov]
    rw [hstock, hmv, sumDeltas_append, sumDeltas_singleton]
    by_cases hj : j = itemId
    · subst hj
      rw [UpdateStock_stock_self hu hnd]
      simp [hm, hq]
    · rw [UpdateStock_stock_other hu j hj]
      have : ¬ m.pricelistItemId = j := by rw [hm]; exact fun hc => hj hc.symm
      simp [this]

/-- The per-line order-creation loop is a ledger step. -/
theorem processOrderItems_ledgerStep {snap : OrderDB} {staffId now : Int} :
    ∀ (lines : List CreateOrderItemRequest) (txdb : OrderDB) (total : Rat)
      (acc : List OrderItem) (txdb' : OrderDB) (total' : Rat) (acc' : List OrderItem),
    processOrderItems snap staffId now txdb lines total acc = .ok (txdb', total', acc') →
    LedgerStep txdb txdb'
  | [], txdb, total, acc, txdb', total', acc', h => by
    simp only [processOrderItems, Res.ok.injEq, Prod.mk.injEq] at h
    obtain ⟨h1, -, -⟩ := h
    exact h1 ▸ ledgerStep_refl txdb
  | itemReq :: rest, txdb, total, acc, txdb', total', acc', h => by
    rw [processOrderItems] at h
    split at h
    · exact absurd h (by simp)
    · split at h
      · exact absurd h (by simp)
      · exact absurd h (by simp)
      · next price stock itemName tracksStock heq =>
        dsimp only at h
        split at h
        · split at h
          · exact absurd h (by simp)
          · split at h
            · exact absurd h (by simp)
            · next txdb1 n hu =>
              exact ledgerStep_trans (LedgerStep.pair hu rfl rfl)
                (processOrderItems_ledgerStep rest _ _ _ _ _ _ h)
        · exact processOrderItems_ledgerStep rest _ _ _ _ _ _ h

/-- The movement that the stock-return loop records for one order item:
one movement with the item's ordered quantity as positive delta when the
snapshot says the item tracks stock, none otherwise. -/
def returnMovementOf (snap : OrderDB) (actor : Option Int) (mtype reason : String)
    (now : Int) (oi : OrderItem) : Option InventoryMovement :=
  match snap.items.find? (fun it => it.id == oi.pricelistItemId) with
  | none => none
  | some it =>
    if it.tracksStock then
      some { pricelistItemId := oi.pricelistItemId
             staffId := actor
             movementType := mtype
             quantityChanged := oi.quantity
             reason := NewNullString reason
             movementDate := now }
    else none

/-- Total quantity the stock-return loop adds back to one item: the sum of
the ordered quantities of the stock-tracked lines for that item. -/
def returnedQty (snap : OrderDB) (items : List OrderItem) (j : Int) : Int :=
  ((items.filter (fun oi =>
      oi.pricelistItemId == j && trackedInSnap snap oi.pricelistItemId)).map
    (fun oi => oi.quantity)).sum

theorem CreateMovement_stockValue (db : OrderDB) (m : InventoryMovement) (j : Int) :
    stockValue (CreateMovement db m) j = stockValue db j := by
  simp [CreateMovement, stockValue]

theorem itemIds_CreateMovement (db : OrderDB) (m : InventoryMovement) :
    itemIds (CreateMovement db m) = itemIds db := rfl

theorem CreateMovement_movements (db : OrderDB) (m : InventoryMovement) :
    (CreateMovement db m).movements = db.movements ++ [m] := rfl

theorem returnedQty_cons (snap : OrderDB) (oi : OrderItem) (rest : List OrderItem)
    (j : Int) :
    returnedQty snap (oi :: rest) j =
      (if oi.pricelistItemId = j ∧ trackedInSnap snap oi.pricelistItemId = true
       then oi.quantity else 0) + returnedQty snap rest j := by
  unfold returnedQty
  rw [List.filter_cons]
  by_cases h1 : oi.pricelistItemId = j
  · subst h1
    by_cases h2 : trackedInSnap snap oi.pricelistItemId = true
    · simp [h2]
    · simp [h2]
  · simp [h1]

/-- The stock-return loop is a ledger step. -/
theorem returnOrderItems_ledgerStep {snap : OrderDB} {actor : Option Int}
    {mtype reason : String} {now : Int} :
    ∀ (items : List OrderItem) (txdb txdb' : OrderDB),
    returnOrderItems snap actor mtype reason now txdb items = .ok txdb' →
    LedgerStep txdb txdb'
  | [], txdb, txdb', h => by
    simp only [returnOrderItems, Res.ok.injEq] at h
    exact h ▸ ledgerStep_refl txdb
  | item :: rest, txdb, txdb', h => by
    rw [returnOrderItems] at h
    split at h
    · exact absurd h (by simp)
    · split at h
      · split at h
        · exact absurd h (by simp)
        · next txdb1 n hu =>
          exact ledgerStep_trans (LedgerStep.pair hu rfl rfl)
            (returnOrderItems_ledgerStep rest _ _ h)
      · exact returnOrderItems_ledgerStep rest _ _ h

/-- Exact effect of the stock-return loop: the ledger grows by exactly the
per-line return movements, and each item's stock grows by exactly the
returned quantity. -/
theorem returnOrderItems_spec {snap : OrderDB} {actor : Option Int}
    {mtype reason : String} {now : Int} :
    ∀ (items : List OrderItem) (txdb txdb' : OrderDB),
    returnOrderItems snap actor mtype reason now txdb items = .ok txdb' →
    txdb'.movements = txdb.movements ++
      items.filterMap (returnMovementOf snap actor mtype reason now) ∧
    ((itemIds txdb).Nodup →
      ∀ j, stockValue txdb' j = stockValue txdb j + returnedQty snap items j)
  | [], txdb, txdb', h => by
    simp only [returnOrderItems, Res.ok.injEq] at h
    subst h
    exact ⟨by simp, fun _ j => by simp [returnedQty]⟩
  | item :: rest, txdb, txdb', h => by
    rw [returnOrderItems] at h
    split at h
    · exact absurd h (by simp)
    · next price stock itemName tracksStock heq =>
      have hfind : ∃ it, snap.items.find? (fun it => it.id == item.pricelistItemId) =
          some it ∧ it.tracksStock = tracksStock := by
        unfold GetItemPriceAndStock at heq
        split at heq
        · exact absurd heq (by simp)
        · next it hf =>
          simp only [Res.ok.injEq, Prod.mk.injEq] at heq
          exact ⟨it, hf, heq.2.2.2⟩
      obtain ⟨it, hf, htr⟩ := hfind
      have htracked : trackedInSnap snap item.pricelistItemId = tracksStock := by
        simp [trackedInSnap, hf, htr]
      split at h
      · next htrue =>
        split at h
        · exact absurd h (by simp)
        · next txdb1 n hu =>
          obtain ⟨ih1, ih2⟩ := returnOrderItems_spec rest _ _ h
          rw [CreateMovement_movements] at ih1
          simp only [CreateMovement_stockValue, itemIds_CreateMovement] at ih2
          have hmov1 : txdb1.movements = txdb.movements := (UpdateStock_frame hu).1
          have hids1 : itemIds txdb1 = itemIds txdb :=
            itemIds_eq_of_trackIds_eq (UpdateStock_trackIds hu)
          constructor
          · rw [ih1, hmov1, List.filterMap_cons]
            have hret : returnMovementOf snap actor mtype reason now item =
                some { pricelistItemId := item.pricelistItemId
                       staffId := actor
                       movementType := mtype
                       quantityChanged := item.quantity
                       reason := NewNullString reason
                       movementDate := now } := by
              simp only [returnMovementOf, hf]
              rw [htr]
              simp [htrue]
            rw [hret]
            simp
          · intro hnd j
            have hnd1 : (itemIds txdb1).Nodup := by rwa [hids1]
            rw [ih2 hnd1 j, returnedQty_cons]
            by_cases hj : item.pricelistItemId = j
            · rw [UpdateStock_stock_self (hj ▸ hu) hnd]
              rw [if_pos ⟨hj, by rw [htracked, htrue]⟩]
              omega
            · rw [UpdateStock_stock_other hu j (fun hc => hj hc.symm)]
              rw [if_neg (fun hc => hj hc.1)]
              omega
      · next hfalse =>
        obtain ⟨ih1, ih2⟩ := returnOrderItems_spec rest _ _ h
        have htrf : tracksStock = false := by
          cases tracksStock with
          | true => exact absurd rfl hfalse
          | false => rfl
        constructor
        · rw [ih1, List.filterMap_cons]
          have hret : returnMovementOf snap actor mtype reason now item = none := by
            simp only [returnMovementOf, hf]
            rw [htr, htrf]
            simp
          rw [hret]
        · intro hnd j
          rw [ih2 hnd j, returnedQty_cons]
          rw [if_neg (fun hc => by rw [htracked, htrf] at hc; exact absurd hc.2 (by simp))]
          omega

/-- Unfolding a successful CreateOrder call into its loop result and the
commit-time inserts. -/
theorem CreateOrder_ok_elim {db : OrderDB} {req : CreateOrderRequest} {now : Int}
    {db2 : OrderDB} {oid : Int} (h : CreateOrder db req now = .ok (db2, oid)) :
    ∃ txdb total acc,
      processOrderItems db req.staffId now db req.orderItems 0 [] = .ok (txdb, total, acc) ∧
      isValidOrderStatus req.status = true ∧
      oid = db.nextOrderId ∧
      db2 = { txdb with
        orders := txdb.orders ++ [builtOrder req now db.nextOrderId total]
        orderItems := txdb.orderItems ++
          acc.map (fun oi => { oi with orderId := db.nextOrderId })
        nextOrderId := db.nextOrderId + 1 } := by
  unfold CreateOrder at h
  split at h
  · exact absurd h (by simp)
  · next txdb total acc hproc =>
    split at h
    · next hvalid =>
      simp only [Res.ok.injEq, Prod.mk.injEq] at h
      obtain ⟨h1, h2⟩ := h
      exact ⟨txdb, total, acc, hproc, hvalid, h2.symm, h1.symm⟩
    · exact absurd h (by simp)

/-- Unfolding a successful UpdateOrderStatus call: a ledger step (the
optional stock return) followed by the status row update. -/
theorem UpdateOrderStatus_ok_ledger {db : OrderDB} {orderId : Int}
    {newStatus : String} {now : Int} {db' : OrderDB}
    (h : UpdateOrderStatus db orderId newStatus now = .ok db') :
    ∃ txdb, LedgerStep db txdb ∧
      db' = RepoUpdateOrderStatus txdb orderId newStatus now := by
  unfold UpdateOrderStatus at h
  split at h
  · split at h
    · exact absurd h (by simp)
    · next cur hget =>
      dsimp only at h
      split at h
      · exact absurd h (by simp)
      · next txdb hret =>
        simp only [Res.ok.injEq] at h
        refine ⟨txdb, ?_, h.symm⟩
        split at hret
        · exact returnOrderItems_ledgerStep _ _ _ hret
        · simp only [Res.ok.injEq] at hret
          exact hret ▸ ledgerStep_refl db
  · exact absurd h (by simp)

/-- Unfolding a successful DeleteOrder call: a ledger step (the optional
stock return) followed by the two deletes. -/
theorem DeleteOrder_ok_ledger {db : OrderDB} {orderId now : Int} {db' : OrderDB}
    (h : DeleteOrder db orderId now = .ok db') :
    ∃ txdb, LedgerStep db txdb ∧
      db' = { txdb with
        orderItems := txdb.orderItems.filter (fun oi => !(oi.orderId == orderId))
        orders := txdb.orders.filter (fun o => !(o.id == orderId)) } := by
  unfold DeleteOrder at h
  split at h
  · exact absurd h (by simp)
  · next order hget =>
    dsimp only at h
    split at h
    · exact absurd h (by simp)
    · next txdb hret =>
      simp only [Res.ok.injEq] at h
      refine ⟨txdb, ?_, h.symm⟩
      split at hret
      · exact returnOrderItems_ledgerStep _ _ _ hret
      · simp only [Res.ok.injEq] at hret
        exact hret ▸ ledgerStep_refl db

/-! ## Stock conservation over operation sequences -/

/-- Stock/ledger conservation between two committed states: items keep
their ids and tracking flags, and (under primary-key uniqueness of item
ids) every item's stock change equals the change of its recorded movement
deltas. -/
structure Conserves (db db' : OrderDB) : Prop where
  track_eq : trackIds db' = trackIds db
  cons : (itemIds db).Nodup → ∀ j,
    stockValue db' j - stockValue db j =
      sumDeltas db'.movements j - sumDeltas db.movements j

theorem conserves_refl (db : OrderDB) : Conserves db db :=
  ⟨Eq.refl _, fun _ _ => by omega⟩

theorem Conserves.of_same {db db' : OrderDB} (hi : db'.items = db.items)
    (hm : db'.movements = db.movements) : Conserves db db' := by
  refine ⟨by simp [trackIds, hi], ?_⟩
  intro _ j
  have h1 : stockValue db' j = stockValue db j := by simp [stockValue, hi]
  rw [h1, hm]
  omega

theorem conserves_trans {db1 db2 db3 : OrderDB}
    (h12 : Conserves db1 db2) (h23 : Conserves db2 db3) : Conserves db1 db3 := by
  refine ⟨h23.track_eq.trans h12.track_eq, ?_⟩
  intro hnd j
  have hnd2 : (itemIds db2).Nodup := by
    rwa [itemIds_eq_of_trackIds_eq h12.track_eq]
  have e1 := h12.cons hnd j
  have e2 := h23.cons hnd2 j
  omega

theorem LedgerStep.conserves {db db' : OrderDB} (h : LedgerStep db db') :
    Conserves db db' :=
  ⟨h.track_eq, h.cons⟩

/-- One core operation conserves the stock/ledger relation. -/
theorem applyOp_conserves (db : OrderDB) (op : CoreOp) :
    Conserves db (applyOp db op) := by
  cases op with
  | createOrd req now =>
    show Conserves db (CreateOrderRun db req now).1
    unfold CreateOrderRun
    split
    · next db2 oid h =>
      obtain ⟨txdb, total, acc, hproc, -, -, hdb2⟩ := CreateOrder_ok_elim h
      refine conserves_trans
        (processOrderItems_ledgerStep _ _ _ _ _ _ _ hproc).conserves ?_
      subst hdb2
      exact Conserves.of_same rfl rfl
    · exact conserves_refl db
  | updStatus orderId newStatus now =>
    show Conserves db (match UpdateOrderStatus db orderId newStatus now with
      | .ok db' => db' | .err _ => db)
    split
    · next db' h =>
      obtain ⟨txdb, hstep, hdb'⟩ := UpdateOrderStatus_ok_ledger h
      refine conserves_trans hstep.conserves ?_
      subst hdb'
      exact Conserves.of_same rfl rfl
    · exact conserves_refl db
  | delOrd orderId now =>
    show Conserves db (match DeleteOrder db orderId now with
      | .ok db' => db' | .err _ => db)
    split
    · next db' h =>
      obtain ⟨txdb, hstep, hdb'⟩ := DeleteOrder_ok_ledger h
      refine conserves_trans hstep.conserves ?_
      subst hdb'
      exact Conserves.of_same rfl rfl
    · exact conserves_refl db

/-- A whole operation sequence conserves the stock/ledger relation. -/
theorem runOps_conserves (ops : List CoreOp) :
    ∀ db : OrderDB, Conserves db (runOps db ops) := by
  induction ops with
  | nil => exact fun db => conserves_refl db
  | cons op rest ih =>
    intro db
    exact conserves_trans (applyOp_conserves db op) (ih (applyOp db op))

/-! ## Claim theorems -/

/-- C1: if CreateOrder fails at any step after it has begun (insufficient
stock on a later line, a missing item, an invalid status, or a failed
insert), then no stock deduction, no inventory movement, and no order or
order-item row from that call persists: the observable store after the
failed call equals the store before it. -/
theorem CreateOrder_rollback_on_failure (db : OrderDB) (req : CreateOrderRequest)
    (now : Int) (e : Err) (h : CreateOrder db req now = .err e) :
    (CreateOrderRun db req now).1 = db ∧
    (CreateOrderRun db req now).1.items = db.items ∧
    (CreateOrderRun db req now).1.movements = db.movements ∧
    (CreateOrderRun db req now).1.orders = db.orders ∧
    (CreateOrderRun db req now).1.orderItems = db.orderItems := by
  unfold CreateOrderRun
  rw [h]
  exact ⟨rfl, rfl, rfl, rfl, rfl⟩

/-- Store with two tracked items where the second requested line has
insufficient stock (item 1 of the request would already have deducted). -/
def c1db : OrderDB :=
  { items := [ { id := 1, name := "A", price := 5, tracksStock := true,
                 currentStock := some 10 },
               { id := 2, name := "B", price := 3, tracksStock := true,
                 currentStock := some 1 } ]
    movements := []
    orders := []
    orderItems := []
    nextOrderId := 1 }

/-- Request whose first line is satisfiable and whose second line requests
5 units of item 2 with only 1 available. -/
def c1req : CreateOrderRequest :=
  { clientId := none, bookingId := none, staffId := 7, tableId := none
    status := "pending", paymentMethod := none, notes := none
    orderItems := [ { pricelistItemId := 1, quantity := 2, notes := "" },
                    { pricelistItemId := 2, quantity := 5, notes := "" } ]
    discountAmount := none }

theorem CreateOrder_rollback_on_failure_witness :
    CreateOrder c1db c1req 0 = .err (.insufficientStock "B" 2 5 1) ∧
    (CreateOrderRun c1db c1req 0).1.items = c1db.items ∧
    (CreateOrderRun c1db c1req 0).1.movements = c1db.movements :=
  ⟨by decide, (CreateOrder_rollback_on_failure c1db c1req 0
      (.insufficientStock "B" 2 5 1) (by decide)).2.1,
    (CreateOrder_rollback_on_failure c1db c1req 0
      (.insufficientStock "B" 2 5 1) (by decide)).2.2.1⟩

/-- C2: for every item (in particular every stock-tracked one), after any
sequence of core operations, the current stock equals the initial stock
plus the sum of the movement deltas recorded since, because every
successful stock adjustment is paired in-transaction with exactly one
movement carrying the same signed delta. -/
theorem stock_conservation (db0 : OrderDB) (ops : List CoreOp) (j : Int)
    (hnd : (itemIds db0).Nodup) :
    stockValue (runOps db0 ops) j =
      stockValue db0 j +
        (sumDeltas (runOps db0 ops).movements j - sumDeltas db0.movements j) := by
  have h := (runOps_conserves ops db0).cons hnd j
  omega

/-- Operation sequence for the conservation witness: a two-line order
followed by its cancellation. -/
def c2ops : List CoreOp :=
  [ .createOrd c1req 100, .updStatus 1 StatusCancelled 200 ]

theorem stock_conservation_witness :
    (itemIds c1db).Nodup ∧
    stockValue (runOps c1db c2ops) 1 =
      stockValue c1db 1 +
        (sumDeltas (runOps c1db c2ops).movements 1 - sumDeltas c1db.movements 1) :=
  ⟨by decide, stock_conservation c1db c2ops 1 (by decide)⟩

/-- C3: CheckTableAvailability reports the table unavailable (returns
`false`) exactly when another booking on the same table, other than the
excluded one, has status in the occupying set {confirmed, checked-in} and
overlaps under the half-open rule `existing.start < end AND existing.end >
start`; touching endpoints do not count. -/
theorem CheckTableAvailability_unavailable_iff (bookings : List Booking)
    (tableId startTime endTime : Int) (excludeBookingId : Option Int) :
    CheckTableAvailability bookings tableId startTime endTime excludeBookingId = false ↔
      ∃ b ∈ bookings, b.tableId = tableId ∧
        (b.status = BookingStatusConfirmed ∨ b.status = BookingStatusCheckedIn) ∧
        b.startTime < endTime ∧ startTime < b.endTime ∧
        (∀ ex, excludeBookingId = some ex → b.id ≠ ex) := by
  cases excludeBookingId with
  | none =>
    unfold CheckTableAvailability
    rw [beq_eq_false_iff_ne, ← Nat.pos_iff_ne_zero, List.countP_pos_iff]
    constructor
    · rintro ⟨b, hb, hpb⟩
      simp only [Bool.and_eq_true, Bool.or_eq_true, beq_iff_eq,
        decide_eq_true_eq] at hpb
      exact ⟨b, hb, hpb.1.1.1.1, hpb.1.1.1.2, hpb.1.1.2, hpb.1.2,
        fun ex hex => by cases hex⟩
    · rintro ⟨b, hb, h1, h2, h3, h4, -⟩
      exact ⟨b, hb, by simp [h1, h2, h3, h4]⟩
  | some ex =>
    unfold CheckTableAvailability
    rw [beq_eq_false_iff_ne, ← Nat.pos_iff_ne_zero, List.countP_pos_iff]
    constructor
    · rintro ⟨b, hb, hpb⟩
      simp only [Bool.and_eq_true, Bool.or_eq_true, beq_iff_eq,
        decide_eq_true_eq, bne_iff_ne] at hpb
      exact ⟨b, hb, hpb.1.1.1.1, hpb.1.1.1.2, hpb.1.1.2, hpb.1.2,
        fun ex2 hex2 => by cases hex2; exact hpb.2⟩
    · rintro ⟨b, hb, h1, h2, h3, h4, h5⟩
      exact ⟨b, hb, by simp [h1, h2, h3, h4, h5 ex rfl]⟩

/-- C4: when UpdateOrderStatus moves an order into `cancelled` from any
status other than `cancelled`/`refunded`, the ledger grows by exactly one
`return-on-cancel` movement per stock-tracked line, carrying that line's
ordered quantity as positive delta, the order's original staff id as
actor, and a reason referencing the order id; each item's stock grows by
exactly the returned quantities, and untracked lines contribute nothing. -/
theorem UpdateOrderStatus_cancel_returns_stock
    (db : OrderDB) (orderId now : Int) (db' : OrderDB) (cur : Order)
    (hget : GetOrderByID db orderId = .ok cur)
    (hc1 : cur.status ≠ StatusCancelled) (hc2 : cur.status ≠ StatusRefunded)
    (hnd : (itemIds db).Nodup)
    (h : UpdateOrderStatus db orderId StatusCancelled now = .ok db') :
    db'.movements = db.movements ++
      (GetOrderItemsByOrderID db orderId).filterMap
        (returnMovementOf db cur.staffId MovementTypeReturnCancellation
          (cancelReason orderId) now) ∧
    (∀ j, stockValue db' j =
      stockValue db j + returnedQty db (GetOrderItemsByOrderID db orderId) j) := by
  have hvalid : isValidOrderStatus StatusCancelled = true := by decide
  have hb1 : (cur.status != StatusCancelled) = true := by simp [hc1]
  have hb2 : (cur.status != StatusRefunded) = true := by simp [hc2]
  unfold UpdateOrderStatus at h
  rw [hvalid] at h
  simp only [if_true, hget] at h
  rw [if_pos (by simp [hb1, hb2])] at h
  split at h
  · exact absurd h (by simp)
  · next txdb hret =>
    simp only [Res.ok.injEq] at h
    obtain ⟨hmov, hstock⟩ := returnOrderItems_spec _ _ _ hret
    subst h
    constructor
    · simpa [RepoUpdateOrderStatus] using hmov
    · intro j
      have : stockValue (RepoUpdateOrderStatus txdb orderId StatusCancelled now) j =
          stockValue txdb j := by
        simp [RepoUpdateOrderStatus, stockValue]
      rw [this]
      exact hstock hnd j

/-- Store for the cancellation witness: one tracked item at stock 7, one
untracked item, a completed order with a tracked line of quantity 3 and an
untracked line. -/
def c4db : OrderDB :=
  { items := [ { id := 1, name := "A", price := 5, tracksStock := true,
                 currentStock := some 7 },
               { id := 2, name := "B", price := 20, tracksStock := false,
                 currentStock := none } ]
    movements := []
    orders := [ { id := 1, clientId := none, bookingId := none, staffId := some 9,
                  tableId := none, status := "completed", totalAmount := 35,
                  discountAmount := none, finalAmount := 35, paymentMethod := none,
                  notes := none, orderTime := 0, createdAt := 0, updatedAt := 0 } ]
    orderItems := [ { orderId := 1, pricelistItemId := 1, quantity := 3,
                      unitPrice := 5, totalPrice := 15, notes := none },
                    { orderId := 1, pricelistItemId := 2, quantity := 1,
                      unitPrice := 20, totalPrice := 20, notes := none } ]
    nextOrderId := 2 }

/-- The order header of `c4db`. -/
def c4order : Order :=
  { id := 1, clientId := none, bookingId := none, staffId := some 9,
    tableId := none, status := "completed", totalAmount := 35,
    discountAmount := none, finalAmount := 35, paymentMethod := none,
    notes := none, orderTime := 0, createdAt := 0, updatedAt := 0 }

theorem UpdateOrderStatus_cancel_returns_stock_witness :
    (∃ db', UpdateOrderStatus c4db 1 StatusCancelled 50 = .ok db' ∧
      db'.movements = c4db.movements ++
        (GetOrderItemsByOrderID c4db 1).filterMap
          (returnMovementOf c4db c4order.staffId MovementTypeReturnCancellation
            (cancelReason 1) 50) ∧
      stockValue db' 1 = stockValue c4db 1 + returnedQty c4db (GetOrderItemsByOrderID c4db 1) 1) := by
  cases hres : UpdateOrderStatus c4db 1 StatusCancelled 50 with
  | ok db2 =>
    have hmain := UpdateOrderStatus_cancel_returns_stock c4db 1 50 db2 c4order
      (by decide) (by decide) (by decide) (by decide) hres
    exact ⟨db2, rfl, hmain.1, hmain.2 1⟩
  | err e =>
    have hok : (UpdateOrderStatus c4db 1 StatusCancelled 50).isOk = true := by decide
    rw [hres] at hok
    exact absurd hok (by simp [Res.isOk])

/-- C10: a successful UpdateOrderStatus whose requested status is not
`cancelled`, or whose order is already `cancelled`/`refunded`, changes
only the order's status and updated_at: items, movements, order items and
the id sequence are untouched, and the orders table changes only at that
row's status/updated_at fields. -/
theorem UpdateOrderStatus_frame
    (db : OrderDB) (orderId now : Int) (newStatus : String) (db' : OrderDB)
    (cur : Order) (hget : GetOrderByID db orderId = .ok cur)
    (hcond : newStatus ≠ StatusCancelled ∨ cur.status = StatusCancelled ∨
      cur.status = StatusRefunded)
    (h : UpdateOrderStatus db orderId newStatus now = .ok db') :
    db'.items = db.items ∧ db'.movements = db.movements ∧
    db'.orderItems = db.orderItems ∧ db'.nextOrderId = db.nextOrderId ∧
    db'.orders = db.orders.map (fun o =>
      if o.id == orderId then { o with status := newStatus, updatedAt := now }
      else o) := by
  unfold UpdateOrderStatus at h
  split at h
  · rw [hget] at h
    dsimp only at h
    have hskip : (newStatus == StatusCancelled && cur.status != StatusCancelled &&
        cur.status != StatusRefunded) = false := by
      rcases hcond with hc | hc | hc
      · simp [hc]
      · simp [hc]
      · simp [hc]
    rw [if_neg (by simp [hskip])] at h
    simp only [Res.ok.injEq] at h
    subst h
    exact ⟨rfl, rfl, rfl, rfl, rfl⟩
  · exact absurd h (by simp)

theorem UpdateOrderStatus_frame_witness :
    (∃ db', UpdateOrderStatus c4db 1 StatusPaid 50 = .ok db' ∧
      db'.items = c4db.items ∧ db'.movements = c4db.movements ∧
      db'.orderItems = c4db.orderItems) := by
  cases hres : UpdateOrderStatus c4db 1 StatusPaid 50 with
  | ok db2 =>
    have hmain := UpdateOrderStatus_frame c4db 1 50 StatusPaid db2 c4order
      (by decide) (Or.inl (by decide)) hres
    exact ⟨db2, rfl, hmain.1, hmain.2.1, hmain.2.2.1⟩
  | err e =>
    have hok : (UpdateOrderStatus c4db 1 StatusPaid 50).isOk = true := by decide
    rw [hres] at hok
    exact absurd hok (by simp [Res.isOk])

/-- Booking on table 1, `[1000, 3000)`, confirmed. -/
def c7b1 : Booking :=
  { id := 1, clientId := none, tableId := 1, staffId := none,
    startTime := 1000, endTime := 3000, numberOfGuests := none,
    status := "confirmed", notes := none }

/-- Booking on table 2, `[1000, 3000)`, confirmed. -/
def c7b2 : Booking :=
  { id := 2, clientId := none, tableId := 2, staffId := none,
    startTime := 1000, endTime := 3000, numberOfGuests := none,
    status := "confirmed", notes := none }

/-- Store holding the two confirmed bookings on tables 1 and 2. -/
def c7db : BookingDB :=
  { bookings := [c7b1, c7b2], clientIds := [], staffIds := [5], nextBookingId := 3 }

/-- Update request that changes only the table of booking 1 to table 2 and
leaves both times unchanged (omitted). -/
def c7req : UpdateBookingRequest :=
  { tableId := some 2, startTime := none, endTime := none,
    numberOfGuests := none, notes := none, status := none }

/-- Booking 1 after the table-only update applied by the code. -/
def c7moved : Booking :=
  { id := 1, clientId := none, tableId := 2, staffId := none,
    startTime := 1000, endTime := 3000, numberOfGuests := none,
    status := "confirmed", notes := none }

/-- C7, evaluated at the failing input: a request that changes only the
table, with unchanged times, is persisted without any availability
re-check even though CheckTableAvailability (with the booking itself
excluded) reports the target table occupied for that window — the code's
table-change test compares the requested table against the
already-overwritten `booking.TableID`, so it can never fire. -/
theorem UpdateBooking_table_only_change_not_rechecked :
    CheckTableAvailability c7db.bookings 2 1000 3000 (some 1) = false ∧
    UpdateBooking c7db 1 c7req 0 =
      .ok ({ bookings := [c7moved, c7b2], clientIds := [], staffIds := [5],
             nextBookingId := 3 }, c7moved) := by decide

/-- C8: a booking in a terminal state stays immutable: UpdateBooking
rejects any edit to a `completed` or `cancelled` booking, and the status
wrappers reject every transition out of `completed` except `completed`,
and out of `cancelled` except `cancelled` (so CancelBooking fails on a
completed booking and CompleteBooking fails on a cancelled one). -/
theorem booking_terminal_states_immutable
    (db : BookingDB) (bookingId : Int) (b : Booking) (req : UpdateBookingRequest)
    (now : Int) (newStatus : String)
    (hfind : db.bookings.find? (fun x => x.id == bookingId) = some b) :
    ((b.status = BookingStatusCompleted ∨ b.status = BookingStatusCancelled) →
      UpdateBooking db bookingId req now = .err .bookingValidationFailed) ∧
    (b.status = BookingStatusCompleted → newStatus ≠ BookingStatusCompleted →
      updateBookingStatus db bookingId newStatus = .err .bookingStatusUpdate) ∧
    (b.status = BookingStatusCancelled → newStatus ≠ BookingStatusCancelled →
      updateBookingStatus db bookingId newStatus = .err .bookingStatusUpdate) ∧
    (b.status = BookingStatusCompleted →
      CancelBooking db bookingId = .err .bookingStatusUpdate) ∧
    (b.status = BookingStatusCancelled →
      CompleteBooking db bookingId = .err .bookingStatusUpdate) := by
  refine ⟨?_, ?_, ?_, ?_, ?_⟩
  · intro hterm
    unfold UpdateBooking
    rw [hfind]
    dsimp only
    have : (b.status == BookingStatusCompleted ||
        b.status == BookingStatusCancelled) = true := by
      rcases hterm with hc | hc
      · simp [hc]
      · simp [hc]
    rw [if_pos (by simpa using this)]
  · intro hc hne
    unfold updateBookingStatus
    rw [hfind]
    dsimp only
    rw [if_pos (by simp [hc, hne])]
  · intro hc hne
    unfold updateBookingStatus
    rw [hfind]
    dsimp only
    have hnotc : (b.status == BookingStatusCompleted &&
        newStatus != BookingStatusCompleted) = false := by
      rw [hc]
      simp [BookingStatusCancelled, BookingStatusCompleted]
    rw [if_neg (by simp [hnotc]), if_pos (by simp [hc, hne])]
  · intro hc
    show updateBookingStatus db bookingId BookingStatusCancelled =
      .err .bookingStatusUpdate
    unfold updateBookingStatus
    rw [hfind]
    dsimp only
    rw [if_pos (by simp [hc, BookingStatusCancelled, BookingStatusCompleted])]
  · intro hc
    show updateBookingStatus db bookingId BookingStatusCompleted =
      .err .bookingStatusUpdate
    unfold updateBookingStatus
    rw [hfind]
    dsimp only
    have hnotc : (b.status == BookingStatusCompleted &&
        BookingStatusCompleted != BookingStatusCompleted) = false := by
      simp
    rw [if_neg (by simp [hnotc]),
      if_pos (by simp [hc, BookingStatusCancelled, BookingStatusCompleted])]

/-- Store with a completed booking (id 1) and a cancelled booking (id 2). -/
def c8db : BookingDB :=
  { bookings := [ { id := 1, clientId := none, tableId := 1, staffId := none,
                    startTime := 0, endTime := 3600, numberOfGuests := none,
                    status := "completed", notes := none },
                  { id := 2, clientId := none, tableId := 1, staffId := none,
                    startTime := 4000, endTime := 8000, numberOfGuests := none,
                    status := "cancelled", notes := none } ]
    clientIds := [], staffIds := [], nextBookingId := 3 }

/-- The completed booking of `c8db`. -/
def c8completed : Booking :=
  { id := 1, clientId := none, tableId := 1, staffId := none,
    startTime := 0, endTime := 3600, numberOfGuests := none,
    status := "completed", notes := none }

/-- The cancelled booking of `c8db`. -/
def c8cancelled : Booking :=
  { id := 2, clientId := none, tableId := 1, staffId := none,
    startTime := 4000, endTime := 8000, numberOfGuests := none,
    status := "cancelled", notes := none }

theorem booking_terminal_states_immutable_witness :
    UpdateBooking c8db 1 c7req 0 = .err .bookingValidationFailed ∧
    CancelBooking c8db 1 = .err .bookingStatusUpdate ∧
    CompleteBooking c8db 2 = .err .bookingStatusUpdate :=
  ⟨(booking_terminal_states_immutable c8db 1 c8completed c7req 0 "pending"
      (by decide)).1 (Or.inl (by decide)),
   (booking_terminal_states_immutable c8db 1 c8completed c7req 0 "pending"
      (by decide)).2.2.2.1 (by decide),
   (booking_terminal_states_immutable c8db 2 c8cancelled c7req 0 "pending"
      (by decide)).2.2.2.2 (by decide)⟩

/-- C9: CreateBooking rejects with the invalid-booking-time error whenever
`end ≤ start`, the duration is under 15 minutes, the duration exceeds 12
hours, or the start lies before now minus the 5-minute tolerance; a window
satisfying all four constraints (boundaries included) passes the time
validation. -/
theorem CreateBooking_time_validation
    (db : BookingDB) (req : CreateBookingRequest) (now : Int) :
    ((req.endTime ≤ req.startTime ∨ req.endTime - req.startTime < 15 * 60 ∨
      12 * 60 * 60 < req.endTime - req.startTime ∨
      req.startTime < now - 5 * 60) →
      CreateBooking db req now = .err .invalidBookingTime) ∧
    ((req.startTime < req.endTime ∧ 15 * 60 ≤ req.endTime - req.startTime ∧
      req.endTime - req.startTime ≤ 12 * 60 * 60 ∧
      now - 5 * 60 ≤ req.startTime) →
      parseAndValidateBookingTimes req.startTime req.endTime false none now =
        .ok (req.startTime, req.endTime)) := by
  constructor
  · intro hviol
    have hparse : parseAndValidateBookingTimes req.startTime req.endTime false none now =
        .err .invalidBookingTime := by
      unfold parseAndValidateBookingTimes
      by_cases h1 : ¬ (req.startTime < req.endTime)
      · rw [if_pos h1]
      · rw [if_neg h1]
        by_cases h2 : req.endTime - req.startTime < 15 * 60
        · rw [if_pos h2]
        · rw [if_neg h2]
          by_cases h3 : req.endTime - req.startTime > 12 * 60 * 60
          · rw [if_pos h3]
          · rw [if_neg h3]
            have h1' : req.startTime < req.endTime := not_not.mp h1
            have h4 : req.startTime < now - 5 * 60 := by
              rcases hviol with hv | hv | hv | hv
              · omega
              · omega
              · omega
              · exact hv
            rw [if_pos (by simp only [Bool.not_false, Bool.true_and, decide_eq_true_eq]; omega)]
    unfold CreateBooking
    rw [hparse]
  · intro ⟨h1, h2, h3, h4⟩
    unfold parseAndValidateBookingTimes
    rw [if_neg (by omega), if_neg (by omega), if_neg (by omega),
      if_neg (by simp; omega), if_neg (by simp)]

theorem CreateBooking_time_validation_witness :
    CreateBooking c7db
      { clientId := none, tableId := 1, staffId := 5, startTime := 0,
        endTime := 100, numberOfGuests := none, notes := none, status := none }
      10000 = .err .invalidBookingTime ∧
    parseAndValidateBookingTimes 10000 10900 false none 10000 =
      .ok (10000, 10900) :=
  ⟨(CreateBooking_time_validation c7db
      { clientId := none, tableId := 1, staffId := 5, startTime := 0,
        endTime := 100, numberOfGuests := none, notes := none, status := none }
      10000).1 (by decide),
   (CreateBooking_time_validation c7db
      { clientId := none, tableId := 1, staffId := 5, startTime := 10000,
        endTime := 10900, numberOfGuests := none, notes := none, status := none }
      10000).2 (by decide)⟩

/-- A request line the CreateOrder loop accepts: positive quantity, the
item exists in the committed snapshot, and when it tracks stock the
snapshot stock is set and covers the requested quantity. -/
def lineOk (snap : OrderDB) (l : CreateOrderItemRequest) : Bool :=
  decide (0 < l.quantity) &&
    (match snap.items.find? (fun it => it.id == l.pricelistItemId) with
     | none => false
     | some it => !it.tracksStock ||
         (match it.currentStock with
          | some s => decide (l.quantity ≤ s)
          | none => false))

/-- Processing a prefix of acceptable lines always reaches the remaining
lines, in a transaction state with the snapshot's ids and tracking
flags. -/
theorem processOrderItems_prefix_ok (snap : OrderDB) (staffId now : Int) :
    ∀ (pre rest : List CreateOrderItemRequest) (txdb : OrderDB) (total : Rat)
      (acc : List OrderItem),
    (∀ l ∈ pre, lineOk snap l = true) →
    trackIds txdb = trackIds snap →
    ∃ txdb2 total2 acc2,
      processOrderItems snap staffId now txdb (pre ++ rest) total acc =
        processOrderItems snap staffId now txdb2 rest total2 acc2 ∧
      trackIds txdb2 = trackIds snap := by
  intro pre
  induction pre with
  | nil =>
    intro rest txdb total acc _ htrack
    exact ⟨txdb, total, acc, rfl, htrack⟩
  | cons l pre ih =>
    intro rest txdb total acc hpre htrack
    have hl : lineOk snap l = true := hpre l (List.mem_cons_self l pre)
    simp only [lineOk, Bool.and_eq_true, decide_eq_true_eq] at hl
    obtain ⟨hq, hrest⟩ := hl
    rw [List.cons_append, processOrderItems]
    rw [if_neg (by omega)]
    cases hfind : snap.items.find? (fun it => it.id == l.pricelistItemId) with
    | none => rw [hfind] at hrest; exact absurd hrest (by simp)
    | some it =>
      rw [hfind] at hrest
      dsimp only at hrest
      have hget : GetItemPriceAndStock snap l.pricelistItemId =
          .ok (it.price, it.currentStock, it.name, it.tracksStock) := by
        unfold GetItemPriceAndStock
        rw [hfind]
      rw [hget]
      dsimp only
      cases htr : it.tracksStock with
      | false =>
        rw [if_neg (by simp)]
        exact ih rest txdb _ _
          (fun x hx => hpre x (List.mem_cons_of_mem l hx)) htrack
      | true =>
        rw [htr] at hrest
        simp only [Bool.not_true, Bool.false_or] at hrest
        cases hstock : it.currentStock with
        | none => rw [hstock] at hrest; exact absurd hrest (by simp)
        | some s =>
          rw [hstock] at hrest
          have hs : l.quantity ≤ s := by simpa using hrest
          rw [if_pos (by simp [htr])]
          rw [if_neg (by simp; omega)]
          have hmemtrack : (l.pricelistItemId, true) ∈ trackIds txdb := by
            rw [htrack]
            have hidit : it.id = l.pricelistItemId := by
              simpa using List.find?_some hfind
            have : it ∈ snap.items := List.mem_of_find?_eq_some hfind
            exact List.mem_map.mpr ⟨it, this, by rw [hidit, htr]⟩
          obtain ⟨x, hxmem, hxeq⟩ := List.mem_map.mp hmemtrack
          have hxid : x.id = l.pricelistItemId := congrArg Prod.fst hxeq
          have hxtr : x.tracksStock = true := congrArg Prod.snd hxeq
          obtain ⟨txdb1, n, hu⟩ :=
            UpdateStock_isOk (-l.quantity) ⟨x, hxmem, hxid, hxtr⟩
          rw [hu]
          dsimp only
          have htrack1 : trackIds (CreateMovement txdb1
              { pricelistItemId := l.pricelistItemId, staffId := some staffId,
                movementType := MovementTypeSale, quantityChanged := -l.quantity,
                reason := NewNullString "Order creation", movementDate := now }) =
              trackIds snap := by
            have h1 := UpdateStock_trackIds hu
            simpa [CreateMovement, trackIds] using h1.trans htrack
          exact ih rest _ _ _
            (fun y hy => hpre y (List.mem_cons_of_mem l hy)) htrack1

/-- When the head line's item is missing from the snapshot, the loop fails
with the item-not-found error for that line. -/
theorem processOrderItems_head_itemNotFound {snap : OrderDB} {staffId now : Int}
    {txdb : OrderDB} {l : CreateOrderItemRequest} {rest : List CreateOrderItemRequest}
    {total : Rat} {acc : List OrderItem}
    (hq : 0 < l.quantity)
    (hfind : snap.items.find? (fun it => it.id == l.pricelistItemId) = none) :
    processOrderItems snap staffId now txdb (l :: rest) total acc =
      .err (.itemNotFound l.pricelistItemId) := by
  rw [processOrderItems]
  rw [if_neg (by omega)]
  have hget : GetItemPriceAndStock snap l.pricelistItemId = .err .notFound := by
    unfold GetItemPriceAndStock
    rw [hfind]
  rw [hget]

/-- When the head line's item tracks stock and the snapshot stock is NULL
or below the requested quantity, the loop fails with the insufficient-stock
error reporting the item name, the requested quantity, and the available
quantity (`stock.Int64`, 0 for NULL). -/
theorem processOrderItems_head_insufficient {snap : OrderDB} {staffId now : Int}
    {txdb : OrderDB} {l : CreateOrderItemRequest} {rest : List CreateOrderItemRequest}
    {total : Rat} {acc : List OrderItem} {it : PricelistItem}
    (hq : 0 < l.quantity)
    (hfind : snap.items.find? (fun x => x.id == l.pricelistItemId) = some it)
    (htr : it.tracksStock = true)
    (hlow : it.currentStock = none ∨ ∃ s, it.currentStock = some s ∧ s < l.quantity) :
    processOrderItems snap staffId now txdb (l :: rest) total acc =
      .err (.insufficientStock it.name l.pricelistItemId l.quantity
        (it.currentStock.getD 0)) := by
  rw [processOrderItems]
  rw [if_neg (by omega)]
  have hget : GetItemPriceAndStock snap l.pricelistItemId =
      .ok (it.price, it.currentStock, it.name, it.tracksStock) := by
    unfold GetItemPriceAndStock
    rw [hfind]
  rw [hget]
  dsimp only
  rw [if_pos (by simp [htr])]
  rcases hlow with hnone | ⟨s, hsome, hlt⟩
  · rw [hnone]
    rw [if_pos (by simp)]
  · rw [hsome]
    rw [if_pos (by simp; omega)]

/-- A loop failure is a CreateOrder failure with the same error. -/
theorem CreateOrder_err_of_process_err {db : OrderDB} {req : CreateOrderRequest}
    {now : Int} {e : Err}
    (h : processOrderItems db req.staffId now db req.orderItems 0 [] = .err e) :
    CreateOrder db req now = .err e := by
  unfold CreateOrder
  rw [h]

/-- C5: for any request line reached by the CreateOrder loop (all earlier
lines acceptable, positive quantity): if the referenced item is missing
CreateOrder fails with the item-not-found error, and if the item tracks
stock and the requested quantity exceeds the available stock (NULL read as
0) CreateOrder fails with the insufficient-stock error reporting the item
name, the requested quantity and the available quantity — in both cases
the transaction aborts, so by rollback no partial deduction commits. -/
theorem CreateOrder_line_failures
    (db : OrderDB) (req : CreateOrderRequest) (now : Int)
    (pre post : List CreateOrderItemRequest) (l : CreateOrderItemRequest)
    (hsplit : req.orderItems = pre ++ l :: post)
    (hpre : ∀ x ∈ pre, lineOk db x = true)
    (hq : 0 < l.quantity) :
    (db.items.find? (fun it => it.id == l.pricelistItemId) = none →
      CreateOrder db req now = .err (.itemNotFound l.pricelistItemId)) ∧
    (∀ it, db.items.find? (fun x => x.id == l.pricelistItemId) = some it →
      it.tracksStock = true →
      (it.currentStock = none ∨ ∃ s, it.currentStock = some s ∧ s < l.quantity) →
      CreateOrder db req now = .err (.insufficientStock it.name
        l.pricelistItemId l.quantity (it.currentStock.getD 0))) := by
  obtain ⟨txdb2, total2, acc2, hred, htrack2⟩ :=
    processOrderItems_prefix_ok db req.staffId now pre (l :: post) db 0 [] hpre rfl
  constructor
  · intro hmiss
    apply CreateOrder_err_of_process_err
    rw [hsplit, hred]
    exact processOrderItems_head_itemNotFound hq hmiss
  · intro it hfind htr hlow
    apply CreateOrder_err_of_process_err
    rw [hsplit, hred]
    exact processOrderItems_head_insufficient hq hfind htr hlow

theorem CreateOrder_line_failures_witness :
    CreateOrder c1db c1req 0 = .err (.insufficientStock "B" 2 5 1) ∧
    CreateOrder c1db
      { c1req with orderItems := [ { pricelistItemId := 9, quantity := 1, notes := "" } ] }
      0 = .err (.itemNotFound 9) :=
  ⟨(CreateOrder_line_failures c1db c1req 0
      [ { pricelistItemId := 1, quantity := 2, notes := "" } ] []
      { pricelistItemId := 2, quantity := 5, notes := "" }
      (by decide) (by decide) (by decide)).2
      { id := 2, name := "B", price := 3, tracksStock := true, currentStock := some 1 }
      (by decide) (by decide) (Or.inr ⟨1, by decide, by decide⟩),
   (CreateOrder_line_failures c1db
      { c1req with orderItems := [ { pricelistItemId := 9, quantity := 1, notes := "" } ] }
      0 [] [] { pricelistItemId := 9, quantity := 1, notes := "" }
      (by decide) (by decide) (by decide)).1 (by decide)⟩

/-- Amount accounting of the CreateOrder loop: it extends the accumulated
order-item slice by lines whose captured total is the unit-price snapshot
times the quantity, adds exactly those line totals to the running total,
and every captured unit price is the price of a snapshot item. -/
theorem processOrderItems_amounts {snap : OrderDB} {staffId now : Int} :
    ∀ (lines : List CreateOrderItemRequest) (txdb : OrderDB) (total : Rat)
      (acc : List OrderItem) (txdb' : OrderDB) (total' : Rat) (acc' : List OrderItem),
    processOrderItems snap staffId now txdb lines total acc = .ok (txdb', total', acc') →
    ∃ delta, acc' = acc ++ delta ∧
      total' = total + ((delta.map (fun oi => oi.totalPrice)).sum) ∧
      ∀ oi ∈ delta, oi.totalPrice = oi.unitPrice * (oi.quantity : Rat) ∧
        0 < oi.quantity ∧ ∃ it ∈ snap.items, oi.unitPrice = it.price
  | [], txdb, total, acc, txdb', total', acc', h => by
    simp only [processOrderItems, Res.ok.injEq, Prod.mk.injEq] at h
    obtain ⟨-, h2, h3⟩ := h
    exact ⟨[], by simp [h3], by simp [h2], by simp⟩
  | itemReq :: rest, txdb, total, acc, txdb', total', acc', h => by
    rw [processOrderItems] at h
    split at h
    · exact absurd h (by simp)
    · next hqpos =>
      split at h
      · exact absurd h (by simp)
      · exact absurd h (by simp)
      · next price stock itemName tracksStock heq =>
        have hsnap : ∃ it ∈ snap.items, price = it.price := by
          unfold GetItemPriceAndStock at heq
          split at heq
          · exact absurd heq (by simp)
          · next it hf =>
            simp only [Res.ok.injEq, Prod.mk.injEq] at heq
            exact ⟨it, List.mem_of_find?_eq_some hf, heq.1.symm⟩
        have hq : 0 < itemReq.quantity := by omega
        dsimp only at h
        split at h
        · split at h
          · exact absurd h (by simp)
          · split at h
            · exact absurd h (by simp)
            · next txdb1 n hu =>
              obtain ⟨delta, hd1, hd2, hd3⟩ := processOrderItems_amounts rest _ _ _ _ _ _ h
              refine ⟨(⟨0, itemReq.pricelistItemId, itemReq.quantity, price,
                  price * (itemReq.quantity : Rat),
                  NewNullString itemReq.notes⟩ : OrderItem) :: delta, ?_, ?_, ?_⟩
              · simpa using hd1
              · rw [hd2]
                simp only [List.map_cons, List.sum_cons]
                ring
              · intro oi hoi
                rcases List.mem_cons.mp hoi with hoi | hoi
                · subst hoi
                  exact ⟨by ring, hq, hsnap⟩
                · exact hd3 oi hoi
        · obtain ⟨delta, hd1, hd2, hd3⟩ := processOrderItems_amounts rest _ _ _ _ _ _ h
          refine ⟨(⟨0, itemReq.pricelistItemId, itemReq.quantity, price,
              price * (itemReq.quantity : Rat),
              NewNullString itemReq.notes⟩ : OrderItem) :: delta, ?_, ?_, ?_⟩
          · simpa using hd1
          · rw [hd2]
            simp only [List.map_cons, List.sum_cons]
            ring
          · intro oi hoi
            rcases List.mem_cons.mp hoi with hoi | hoi
            · subst hoi
              exact ⟨by ring, hq, hsnap⟩
            · exact hd3 oi hoi

/-- C6: every order a successful CreateOrder commits satisfies both amount
equations: its total is the sum of its line totals, each line total is the
quantity times the unit-price snapshot, and its final amount is
`max 0 (total - discount)` with an absent discount read as 0 — in
particular the final amount is never negative.  (Catalog prices are
nonnegative per the data-model invariant.) -/
theorem CreateOrder_amounts
    (db : OrderDB) (req : CreateOrderRequest) (now : Int) (db' : OrderDB) (oid : Int)
    (h : CreateOrder db req now = .ok (db', oid))
    (hprices : ∀ it ∈ db.items, 0 ≤ it.price) :
    ∃ ord newItems,
      db'.orders = db.orders ++ [ord] ∧ ord.id = oid ∧
      db'.orderItems = db.orderItems ++ newItems ∧
      (∀ oi ∈ newItems, oi.orderId = oid ∧
        oi.totalPrice = oi.unitPrice * (oi.quantity : Rat)) ∧
      ord.totalAmount = (newItems.map (fun oi => oi.totalPrice)).sum ∧
      ord.discountAmount = req.discountAmount ∧
      ord.finalAmount = max 0 (ord.totalAmount - (req.discountAmount.getD 0)) ∧
      0 ≤ ord.finalAmount := by
  obtain ⟨txdb, total, acc, hproc, -, hoid, hdb'⟩ := CreateOrder_ok_elim h
  have hledger := processOrderItems_ledgerStep _ _ _ _ _ _ _ hproc
  obtain ⟨delta, hd1, hd2, hd3⟩ := processOrderItems_amounts _ _ _ _ _ _ _ hproc
  have hdelta : acc = delta := by simpa using hd1
  subst hdelta
  have htotal : total = ((acc.map (fun oi => oi.totalPrice)).sum) := by
    rw [hd2]
    ring
  have htotal_nonneg : 0 ≤ total := by
    rw [htotal]
    apply List.sum_nonneg
    intro x hx
    obtain ⟨oi, hoi, hoix⟩ := List.mem_map.mp hx
    obtain ⟨ht, hqpos, it, hitmem, hup⟩ := hd3 oi hoi
    have : 0 ≤ oi.unitPrice := hup ▸ hprices it hitmem
    rw [← hoix, ht, hup]
    have hq0 : (0 : Rat) ≤ (oi.quantity : Rat) := by
      exact_mod_cast le_of_lt (by exact_mod_cast hqpos)
    exact mul_nonneg (hup ▸ this) hq0
  refine ⟨builtOrder req now db.nextOrderId total,
    acc.map (fun oi => { oi with orderId := db.nextOrderId }), ?_, ?_, ?_, ?_, ?_, ?_, ?_, ?_⟩
  · rw [hdb']
    show txdb.orders ++ _ = db.orders ++ _
    rw [hledger.orders_eq]
  · rw [hoid]
    rfl
  · rw [hdb']
    show txdb.orderItems ++ _ = db.orderItems ++ _
    rw [hledger.orderItems_eq]
  · intro oi hoi
    obtain ⟨x, hx, hxeq⟩ := List.mem_map.mp hoi
    obtain ⟨ht, -, -⟩ := hd3 x hx
    subst hxeq
    exact ⟨hoid.symm ▸ rfl, by simpa using ht⟩
  · show total = _
    rw [htotal, List.map_map]
    rfl
  · rfl
  · show finalOf total req.discountAmount = max 0 (total - req.discountAmount.getD 0)
    unfold finalOf
    cases req.discountAmount with
    | none =>
      dsimp only
      rw [Option.getD_none, sub_zero, max_eq_right htotal_nonneg]
    | some d =>
      dsimp only
      rw [Option.getD_some]
      by_cases hlt : total - d < 0
      · rw [if_pos hlt, max_eq_left (le_of_lt hlt)]
      · rw [if_neg hlt, max_eq_right (not_lt.mp hlt)]
  · show 0 ≤ finalOf total req.discountAmount
    unfold finalOf
    cases req.discountAmount with
    | none => exact htotal_nonneg
    | some d =>
      dsimp only
      by_cases hlt : total - d < 0
      · rw [if_pos hlt]
      · rw [if_neg hlt]
        exact not_lt.mp hlt

/-- Request computing the final-amount floor: total 50, discount 70. -/
def c6req : CreateOrderRequest :=
  { clientId := none, bookingId := none, staffId := 7, tableId := none
    status := "pending", paymentMethod := none, notes := none
    orderItems := [ { pricelistItemId := 1, quantity := 10, notes := "" } ]
    discountAmount := some 70 }

theorem CreateOrder_amounts_witness :
    (∃ db2 oid, CreateOrder c1db c6req 0 = .ok (db2, oid) ∧
      ∃ ord newItems,
        db2.orders = c1db.orders ++ [ord] ∧ ord.id = oid ∧
        db2.orderItems = c1db.orderItems ++ newItems ∧
        ord.totalAmount = (newItems.map (fun oi => oi.totalPrice)).sum ∧
        ord.finalAmount = max 0 (ord.totalAmount - 70) ∧
        0 ≤ ord.finalAmount) := by
  cases hres : CreateOrder c1db c6req 0 with
  | ok p =>
    obtain ⟨db2, oid⟩ := p
    obtain ⟨ord, newItems, h1, h2, h3, -, h5, -, h7, h8⟩ :=
      CreateOrder_amounts c1db c6req 0 db2 oid hres (by decide)
    exact ⟨db2, oid, rfl, ord, newItems, h1, h2, h3, h5, h7, h8⟩
  | err e =>
    have hok : (CreateOrder c1db c6req 0).isOk = true := by decide
    rw [hres] at hok
    exact absurd hok (by simp [Res.isOk])

end PSCRM
